import Mathlib

/-!
Shallow embedding of the QuantumAllostery processing module (`qa/process.py`)
and verification of the frozen claims about it.

Text files are modelled line-wise: a line is a `List Char` (including its
trailing newline character where it matters), a file is a `List Line`.
Python list slicing `l[a:b]` (with non-negative bounds) is `pySlice`.
-/

namespace QA

abbrev Line := List Char

/-- Python slice `l[a:b]` for non-negative clamped bounds. -/
def pySlice (l : List α) (a b : Nat) : List α := (l.take b).drop a

/-- Python `str.isspace` characters relevant to `split()` / `strip()`. -/
def isSpace (c : Char) : Bool :=
  c = ' ' || c = '\t' || c = '\n' || c = '\r' || c = '\x0b' || c = '\x0c'

/-- Accumulator pass behind `pyTokens`: current (reversed) word plus rest. -/
def pyTokensAux : Line → Line → List Line
  | [], cur => if cur = [] then [] else [cur.reverse]
  | c :: cs, cur =>
    if isSpace c then
      if cur = [] then pyTokensAux cs [] else cur.reverse :: pyTokensAux cs []
    else pyTokensAux cs (c :: cur)

/-- Python `str.split()` with no argument: split on whitespace runs, no
empty tokens. -/
def pyTokens (l : Line) : List Line := pyTokensAux l []

/-- Python `str.strip()`: remove whitespace from both ends. -/
def pyStrip (l : Line) : Line :=
  ((l.dropWhile isSpace).reverse.dropWhile isSpace).reverse

/-- Python `line.strip("\n")`: remove newline characters from both ends
(src/qa/process.py line 740). -/
def pyStripNl (l : Line) : Line :=
  ((l.dropWhile (· == '\n')).reverse.dropWhile (· == '\n')).reverse

/-- Decimal digit value of a character, if it is a digit. -/
def digitVal? (c : Char) : Option Nat :=
  if '0' ≤ c && c ≤ '9' then some (c.toNat - '0'.toNat) else none

/-- Value of a digit string, `none` on any non-digit. -/
def digitsValGo : Line → Nat → Option Nat
  | [], acc => some acc
  | c :: cs, acc =>
    match digitVal? c with
    | some d => digitsValGo cs (acc * 10 + d)
    | none => none

/-- Value of a non-empty digit string. -/
def digitsVal? (l : Line) : Option Nat :=
  match l with
  | [] => none
  | _ => digitsValGo l 0

/-- Python `int(s)` on an already-stripped token: optional sign followed by
digits; `none` models the `ValueError`. -/
def pyInt? (l : Line) : Option Int :=
  match l with
  | '-' :: rest => (digitsVal? rest).map (fun n => -(n : Int))
  | '+' :: rest => (digitsVal? rest).map (fun n => (n : Int))
  | _ => (digitsVal? l).map (fun n => (n : Int))

/-- Python `l.startswith(pat)` on char lists: `l[:len(pat)] == pat`. -/
def startsWith (pat l : Line) : Bool := l.take pat.length == pat

/-- Python substring test `pat in l`. -/
def hasSubstr (pat : Line) : Line → Bool
  | [] => pat.isEmpty
  | c :: cs => startsWith pat (c :: cs) || hasSubstr pat cs

/-! ## Frame Deduplicator / Stitcher and Dual-Stream Aligner
(`combine_restarts`, src/qa/process.py lines 252-372)

A run directory (`scr*`) either misses `coors.xyz`/`charge.xls` (the code
skips it, src lines 298-300) or provides both.  The coordinate blocks of a
run are tracked by their parsed frame numbers (the title-line field
`int(title_line.split()[2])`, src lines 312-322); the charge file is kept
as its raw line list. -/

structure RunFiles where
  frame_numbers : List Int
  charge_lines : List Line
deriving DecidableEq

/-- Frame numbers of a run directory; `[]` for a skipped directory. -/
def run_frames : Option RunFiles → List Int
  | none => []
  | some r => r.frame_numbers

/-- A run that parses at least one frame and whose charge file has exactly
one header line plus one row per coordinate frame (the shape
`combine_restarts` inputs have when the two streams did not diverge;
non-emptiness is also what lets the Python loop finish: the status print
at src lines 351-354 indexes `frame_numbers[valid_start_idx]` and would
raise `IndexError` on a present run with no parsed frame). -/
def run_valid : Option RunFiles → Bool
  | none => true
  | some r =>
    !r.frame_numbers.isEmpty && (r.charge_lines.length == r.frame_numbers.length + 1)

/-- A present run parses at least one frame (see `run_valid` on why) and
all its frame numbers are positive. -/
def frames_pos : Option RunFiles → Bool
  | none => true
  | some r => !r.frame_numbers.isEmpty && r.frame_numbers.all (fun f => decide (0 < f))

/-- State carried across run directories by `combine_restarts`:
the watermark `last_frame` (src line 290), the running frame total
(src line 291), the coordinate blocks appended to `all_coors`
(tracked by frame number, src lines 336-340), and the lines appended to
`all_charges` split into the header write (src lines 343-345) and the data
slice writes (src line 346); the charge file on disk is
`header_rows ++ data_rows` since the single header write precedes every
data write. -/
structure CombineState where
  last_frame : Int
  total_frames : Nat
  coors_frames : List Int
  header_rows : List Line
  data_rows : List Line
deriving DecidableEq

/-- Initial state of `combine_restarts` (src lines 283-291: the output
files are deleted, `last_frame = 0`, `total_frames = 0`). -/
def init_state : CombineState :=
  { last_frame := 0, total_frames := 0, coors_frames := [], header_rows := [], data_rows := [] }

/-- The `valid_start_idx` loop (src lines 324-329): the index of the first
frame number strictly greater than the watermark, or `0` when none is. -/
def valid_start_idx (last_frame : Int) (frame_numbers : List Int) : Nat :=
  match frame_numbers.findIdx? (fun f => decide (last_frame < f)) with
  | some i => i
  | none => 0

/-- Processing of one directory by `combine_restarts` (src lines 294-354).
A `none` directory is skipped (src lines 298-300) but still consumes its
`dir_idx`.  For a present directory: `valid_start_idx` is computed, the
watermark becomes the run's last frame number when the run is non-empty
(src lines 331-333), blocks `valid_start_idx..` are appended to
`all_coors` (src lines 336-340), the header `charge_lines[0]` is written
only when `dir_idx == 0` (src lines 343-345; the Python write raises
`IndexError` on an empty charge file, so theorems about the header assume
non-emptiness), and `charge_lines[valid_start_idx+1 : len(frame_numbers)+1]`
is appended (src line 346). -/
def process_dir (st : CombineState) (dir_idx : Nat) : Option RunFiles → CombineState
  | none => st
  | some r =>
    let v := valid_start_idx st.last_frame r.frame_numbers
    { last_frame :=
        match r.frame_numbers.getLast? with
        | some f => f
        | none => st.last_frame
      total_frames := st.total_frames + (r.frame_numbers.length - v)
      coors_frames := st.coors_frames ++ r.frame_numbers.drop v
      header_rows := st.header_rows ++ (if dir_idx = 0 then r.charge_lines.take 1 else [])
      data_rows := st.data_rows ++ pySlice r.charge_lines (v + 1) (r.frame_numbers.length + 1) }

/-- The main directory loop of `combine_restarts` (src line 294). -/
def combine_go (st : CombineState) (dir_idx : Nat) : List (Option RunFiles) → CombineState
  | [] => st
  | d :: rest => combine_go (process_dir st dir_idx d) (dir_idx + 1) rest

/-- `combine_restarts` over the sorted run directories
(src/qa/process.py lines 252-354). -/
def combine_restarts (dirs : List (Option RunFiles)) : CombineState :=
  combine_go init_state 0 dirs

/-! ## Replicate Concatenator (`combine_replicates`, src lines 375-451)

The per-replicate charge files are byte-concatenated into a raw file
(src lines 417-422; line-wise this is `flatten`, assuming every file ends
with a newline), then the raw file is rewritten keeping its first line
unconditionally and dropping every later line that contains the character
`H` (src lines 424-438).  The coordinate side is plain concatenation and
carries no header logic. -/

def combine_replicates_charges (charge_files : List (List Line)) : List Line :=
  match charge_files.flatten with
  | [] => []
  | first :: rest => first :: rest.filter (fun l => !(hasSubstr ['H'] l))

/-! ## Structure Projector (`xyz2pdb_traj`, src lines 713-763) -/

/-- One output record of the projector (src lines 745-747):
`f"{pdb_line[0:30]}{x[0:6]}  {y[0:6]}  {z[0:6]}  {pdb_line[54:80]}"`. -/
def pdb_record (pdb_line x y z : Line) : Line :=
  pySlice pdb_line 0 30 ++ pySlice x 0 6 ++ [' ', ' '] ++ pySlice y 0 6 ++ [' ', ' ']
    ++ pySlice z 0 6 ++ [' ', ' '] ++ pySlice pdb_line 54 80

/-- The `"END\n"` line written on rollover (src line 752). -/
def endLine : Line := ['E', 'N', 'D', '\n']

/-- Abnormal terminations of the `xyz2pdb_traj` loop.  `died` is the
`except: print(f"> Script died at {line_count} -> '{line}'"); quit()`
path (src lines 741-743); `index_error` is the uncaught Python
`IndexError` of `pdb_file[atom - 2]` (src line 744).  Both carry the
records already written to the output file, which was opened with mode
`"w"` before the loop (src line 731) and is left on disk at exit. -/
inductive PdbAbort where
  | died (line_number : Nat) (line_text : Line) (partial_output : List Line)
  | index_error (partial_output : List Line)
deriving DecidableEq

/-- The line loop of `xyz2pdb_traj` (src lines 733-752), carrying `atom`
(starts at `-1`), the 1-based `line_count`, and the records written so
far.  `x, y, z = line.strip("\n").split()[1:5]` succeeds exactly when the
slice has three elements, i.e. when the line splits into exactly four
whitespace-separated tokens. -/
def xyz2pdb_go (pdb_file : List Line) (max_atom : Int) :
    List Line → Int → Nat → List Line → Except PdbAbort (List Line)
  | [], _atom, _lc, acc => .ok acc
  | line :: rest, atom, lc, acc =>
    if 0 < atom then
      let xyzToks := pySlice (pyTokens (pyStripNl line)) 1 5
      if xyzToks.length = 3 then
        match pdb_file.get? ((atom + 1) - 2).toNat with
        | none => .error (.index_error acc)
        | some pdb_line =>
          let acc' := acc ++
            [pdb_record pdb_line (xyzToks.getD 0 []) (xyzToks.getD 1 []) (xyzToks.getD 2 [])]
          if max_atom < atom + 1 then
            xyz2pdb_go pdb_file max_atom rest (-1) (lc + 1) (acc' ++ [endLine])
          else
            xyz2pdb_go pdb_file max_atom rest (atom + 1) (lc + 1) acc'
      else .error (.died (lc + 1) line acc)
    else
      if max_atom < atom + 1 then
        xyz2pdb_go pdb_file max_atom rest (-1) (lc + 1) (acc ++ [endLine])
      else
        xyz2pdb_go pdb_file max_atom rest (atom + 1) (lc + 1) acc

/-- `max_atom = int(pdb_file[len(pdb_file)-3].split()[1])` (src line 730);
`none` models the Python exceptions (assumes at least three template
lines, since a shorter template would wrap around via negative indexing). -/
def max_atom_of (pdb_file : List Line) : Option Int :=
  match pdb_file.get? (pdb_file.length - 3) with
  | none => none
  | some l =>
    match (pyTokens l).get? 1 with
    | none => none
    | some t => pyInt? t

/-- `xyz2pdb_traj` (src lines 713-763): read the template, derive
`max_atom`, then run the conversion loop; `none` when the `max_atom`
extraction itself fails. -/
def xyz2pdb_traj (xyz_file pdb_file : List Line) : Option (Except PdbAbort (List Line)) :=
  (max_atom_of pdb_file).map (fun m => xyz2pdb_go pdb_file m xyz_file (-1) 0 [])

/-! ## Section Integrity Filter (`clean_incomplete_xyz`, src lines 823-873) -/

/-- The section loop of `clean_incomplete_xyz` (src lines 843-862): a line
whose first `len(section_delim)` characters equal the delimiter closes the
buffered section, which is written out iff it holds
`int(section_delim) + 2` lines and otherwise counted as incomplete; the
buffer still held when the input ends is never flushed (the Python loop
simply terminates).  `none` models the `ValueError` of
`int(section_delim)` (src line 852). -/
def clean_go (delim : Line) : List Line → List Line → Nat → Option (List Line × Nat)
  | [], _sect, incomplete => some ([], incomplete)
  | line :: rest, sect, incomplete =>
    if line.take delim.length = delim then
      match pyInt? delim with
      | none => none
      | some n =>
        if (sect.length : Int) = n + 2 then
          match clean_go delim rest [line] incomplete with
          | none => none
          | some (out, inc) => some (sect ++ out, inc)
        else clean_go delim rest [line] (incomplete + 1)
    else clean_go delim rest (sect ++ [line]) incomplete

/-- `clean_incomplete_xyz` (src lines 823-873): the first line is consumed
by `readline()` as the section delimiter (src line 839) and is never
buffered; the next line is buffered unconditionally (the `first_line`
case, src lines 845-847); the remaining lines run the section loop.
Returns the lines written to `all_coors_clean.xyz` and the incomplete
count. -/
def clean_incomplete_xyz (lines : List Line) : Option (List Line × Nat) :=
  match lines with
  | [] => some ([], 0)
  | first :: rest =>
    match rest with
    | [] => some ([], 0)
    | l2 :: rest2 => clean_go (pyStrip first) rest2 [l2] 0

/-! ## QM replicate charge merge (`combine_qm_replicates`, src lines 1153-1213) -/

/-- The literal `"replicate"` column name appended to the header
(src line 1194). -/
def replicateLit : Line := ['r', 'e', 'p', 'l', 'i', 'c', 'a', 't', 'e']

/-- The substring `"nan"` tested against every data row (src line 1197). -/
def nanLit : Line := ['n', 'a', 'n']

/-- Processing of one replicate's `all_charges.xls` by
`combine_qm_replicates` (src lines 1190-1200): line 0 is the header,
written as `line.strip() + "\treplicate\n"` only if no header was written
yet; a later line containing `"nan"` is only reported, not written; every
other line is written as `line.strip() + "\t" + replicate_number + "\n"`.
Output lines are modelled without the terminating newline the write adds. -/
def qm_process_replicate (header_written : Bool) (replicate_number : Line)
    (lines : List Line) : Bool × List Line :=
  match lines with
  | [] => (header_written, [])
  | hdr :: rows =>
    (true,
      (if header_written then [] else [pyStrip hdr ++ '\t' :: replicateLit]) ++
        rows.filterMap (fun l =>
          if hasSubstr nanLit l then none
          else some (pyStrip l ++ '\t' :: replicate_number)))

/-- The replicate loop of `combine_qm_replicates` (src lines 1178-1202),
threading the `header_written` flag. -/
def qm_go (header_written : Bool) : List (Line × List Line) → List Line
  | [] => []
  | (repl, lines) :: rest =>
    let p := qm_process_replicate header_written repl lines
    p.2 ++ qm_go p.1 rest

/-- `combine_qm_replicates` over the sorted replicate directories, each
given as (directory name, lines of its `all_charges.xls`). -/
def combine_qm_replicates (repls : List (Line × List Line)) : List Line :=
  qm_go false repls

/-! ## Concrete inputs used by the claims -/

/-- A well-formed two-section coordinate file with `atom_count = 2`
(each section: count line, title line, two atom lines). -/
def c9_file : List Line :=
  ["2\n".data, "t f 1\n".data, "A 0 0 0\n".data, "B 0 0 0\n".data,
   "2\n".data, "t f 2\n".data, "A 1 1 1\n".data, "B 1 1 1\n".data]

/-- First template atom record of the concrete projector run. -/
def c6_p0 : Line :=
  "ATOM      1  N   SER A   1      11.722  12.213  12.500  1.00  0.00           N\n".data

/-- Second template atom record of the concrete projector run. -/
def c6_p1 : Line :=
  "ATOM      2  H   SER A   1      11.722  12.213  12.500  1.00  0.00           H\n".data

/-- A two-atom template: two atom records, `TER`, `END`; its third-to-last
line is the second atom record, whose second token is `2`, so
`max_atom = 2`. -/
def c6_pdb : List Line := [c6_p0, c6_p1, "TER\n".data, "END\n".data]

/-- A coordinate input whose fourth line has three tokens instead of four. -/
def c6_xyz : List Line :=
  ["2\n".data, "t f 1\n".data, "A 0.0 0.0 0.0\n".data, "B 1.0 1.0\n".data]

/-- The record for the first atom, already written to the output file when
the malformed fourth line is reached. -/
def c6_partial : List Line := [pdb_record c6_p0 "0.0".data "0.0".data "0.0".data]

/-- An 80-byte template record with distinguishable prefix (bytes
`[0,30)`), coordinate region (`[30,54)`) and suffix (`[54,80)`). -/
def c5_template : Line :=
  List.replicate 30 'A' ++ List.replicate 24 'B' ++ List.replicate 26 'C'

end QA

/-! # Theorems -/

namespace QA

/-! ### Stitcher basics -/

theorem findIdx?_some_lt_length {p : Int → Bool} :
    ∀ {l : List Int} {i : Nat}, l.findIdx? p = some i → i < l.length := by
  intro l
  induction l with
  | nil => intro i h; simp [List.findIdx?] at h
  | cons a t ih =>
    intro i h
    rw [List.findIdx?_cons] at h
    by_cases hp : p a
    · simp [hp] at h
      simp [List.length_cons]
      omega
    · simp [hp] at h
      obtain ⟨j, hj, rfl⟩ := h
      have := ih hj
      simp [List.length_cons]
      omega

theorem valid_start_idx_le_length (w : Int) (fs : List Int) :
    valid_start_idx w fs ≤ fs.length := by
  unfold valid_start_idx
  split
  · exact Nat.le_of_lt (findIdx?_some_lt_length (by assumption))
  · exact Nat.zero_le _

theorem valid_start_idx_lt_length (w : Int) (fs : List Int) (h : fs ≠ []) :
    valid_start_idx w fs < fs.length := by
  unfold valid_start_idx
  split
  · exact findIdx?_some_lt_length (by assumption)
  · cases fs with
    | nil => exact absurd rfl h
    | cons a t => simp

/-- Claim C1: the claim says a run none of whose frame numbers strictly
exceeds the watermark is dropped entirely and leaves the watermark
unchanged.  The code does the opposite: on the runs `[1,2,3]` then `[1,2]`
(watermark 3 after the first run, no frame of the second run exceeds it)
`valid_start_idx` stays `0`, so the whole second run is appended again —
duplicating frames 1 and 2 — and the watermark is lowered to 2. -/
theorem c1_code_behavior :
    (combine_restarts
        [some ⟨[1, 2, 3], [['h'], ['a'], ['b'], ['c']]⟩,
         some ⟨[1, 2], [['h'], ['d'], ['e']]⟩]).coors_frames = [1, 2, 3, 1, 2]
    ∧ (combine_restarts
        [some ⟨[1, 2, 3], [['h'], ['a'], ['b'], ['c']]⟩,
         some ⟨[1, 2], [['h'], ['d'], ['e']]⟩]).last_frame = 2 := by decide

/-- Claim C3: on Run A with frames `[1..5]` and Run B with frames
`[3..7]`, the watermark after Run A is 5, the valid start in Run B is
index 3 whose frame is 6 (the first frame strictly greater than 5), and
the reconciled output retains exactly the frames `[1,2,3,4,5,6,7]` —
seven frames, none duplicated. -/
theorem c3_overlap_scenario :
    (combine_restarts
        [some ⟨[1, 2, 3, 4, 5], [['h'], ['a'], ['b'], ['c'], ['d'], ['e']]⟩]).last_frame = 5
    ∧ valid_start_idx 5 [3, 4, 5, 6, 7] = 3
    ∧ [3, 4, 5, 6, 7].get? (valid_start_idx 5 [3, 4, 5, 6, 7]) = some 6
    ∧ (combine_restarts
        [some ⟨[1, 2, 3, 4, 5], [['h'], ['a'], ['b'], ['c'], ['d'], ['e']]⟩,
         some ⟨[3, 4, 5, 6, 7], [['h'], ['p'], ['q'], ['r'], ['s'], ['t']]⟩]).coors_frames
        = [1, 2, 3, 4, 5, 6, 7]
    ∧ (combine_restarts
        [some ⟨[1, 2, 3, 4, 5], [['h'], ['a'], ['b'], ['c'], ['d'], ['e']]⟩,
         some ⟨[3, 4, 5, 6, 7], [['h'], ['p'], ['q'], ['r'], ['s'], ['t']]⟩]).coors_frames.Nodup
    := by decide

/-! ### Claim C2: the cross-stream count invariant -/

theorem process_dir_counts (st : CombineState) (i : Nat) (d : Option RunFiles)
    (hd : run_valid d = true)
    (hst : st.coors_frames.length = st.data_rows.length) :
    (process_dir st i d).coors_frames.length = (process_dir st i d).data_rows.length := by
  cases d with
  | none => exact hst
  | some r =>
    have hlen : r.charge_lines.length = r.frame_numbers.length + 1 := by
      have h2 := hd
      simp only [run_valid, Bool.and_eq_true, beq_iff_eq] at h2
      exact h2.2
    simp only [process_dir, pySlice, List.length_append, List.length_drop, List.length_take,
      hst, hlen]
    omega

theorem combine_go_counts :
    ∀ (dirs : List (Option RunFiles)) (st : CombineState) (i : Nat),
      (∀ d ∈ dirs, run_valid d = true) →
      st.coors_frames.length = st.data_rows.length →
      (combine_go st i dirs).coors_frames.length = (combine_go st i dirs).data_rows.length := by
  intro dirs
  induction dirs with
  | nil => intro st i _ hst; exact hst
  | cons d rest ih =>
    intro st i hv hst
    exact ih (process_dir st i d) (i + 1) (fun x hx => hv x (List.mem_cons_of_mem d hx))
      (process_dir_counts st i d (hv d (List.mem_cons_self d rest)) hst)

/-- Claim C2: for every list of run directories whose present runs have a
valid charge file (one header line plus exactly one charge row per
coordinate frame), the reconciled output has as many retained coordinate
frames as retained charge data rows. -/
theorem c2_count_invariant (dirs : List (Option RunFiles))
    (hvalid : ∀ d ∈ dirs, run_valid d = true) :
    (combine_restarts dirs).coors_frames.length = (combine_restarts dirs).data_rows.length :=
  combine_go_counts dirs init_state 0 hvalid rfl

/-- Witness for C2 at a concrete two-run input with an overlap. -/
theorem c2_count_invariant_witness :
    (combine_restarts
        [some ⟨[1, 2, 3], [['h'], ['a'], ['b'], ['c']]⟩, none,
         some ⟨[2, 3, 4], [['h'], ['d'], ['e'], ['f']]⟩]).coors_frames.length
      = (combine_restarts
        [some ⟨[1, 2, 3], [['h'], ['a'], ['b'], ['c']]⟩, none,
         some ⟨[2, 3, 4], [['h'], ['d'], ['e'], ['f']]⟩]).data_rows.length :=
  c2_count_invariant _ (by decide)

/-! ### Claim C4: no StructuralMismatch check exists -/

/-- Claim C4, counterexample: on a single run with frames `[1,2]` whose
charge file holds only its header line, the reconciled coordinate count is
2 and the reconciled charge-row count is 0 — the counts disagree, yet
`combine_restarts` (which has no failure path at all: the embedding is a
total function, like the source, which raises nothing here) committed both
outputs; the claimed fatal `StructuralMismatch` never happens. -/
theorem c4_counterexample :
    (combine_restarts [some ⟨[1, 2], [['h']]⟩]).coors_frames.length = 2
    ∧ (combine_restarts [some ⟨[1, 2], [['h']]⟩]).data_rows.length = 0 := by decide

/-- Claim C4 as amended: when a present run's charge file is shorter than
its frame list requires, `combine_restarts` does not fail; it silently
commits a charge stream with strictly fewer retained rows than retained
coordinate frames (the code merely prints a count summary). -/
theorem c4_amended (r : RunFiles) (hne : r.frame_numbers ≠ [])
    (hshort : r.charge_lines.length ≤ r.frame_numbers.length) :
    (combine_restarts [some r]).data_rows.length
      < (combine_restarts [some r]).coors_frames.length := by
  have hv := valid_start_idx_lt_length 0 r.frame_numbers hne
  simp only [combine_restarts, combine_go, process_dir, init_state, pySlice,
    List.length_append, List.length_drop, List.length_take, List.length_nil]
  omega

/-- Witness for the amended C4 at the concrete mismatching input. -/
theorem c4_amended_witness :
    (combine_restarts [some ⟨[1, 2], [['h']]⟩]).data_rows.length
      < (combine_restarts [some ⟨[1, 2], [['h']]⟩]).coors_frames.length :=
  c4_amended ⟨[1, 2], [['h']]⟩ (by decide) (by decide)

/-! ### Claim C8: idempotence of the stitcher -/

theorem mem_coors_frames_combine_go :
    ∀ (dirs : List (Option RunFiles)) (st : CombineState) (i : Nat) (f : Int),
      f ∈ (combine_go st i dirs).coors_frames →
      f ∈ st.coors_frames ∨ ∃ d ∈ dirs, f ∈ run_frames d := by
  intro dirs
  induction dirs with
  | nil => intro st i f h; exact Or.inl h
  | cons d rest ih =>
    intro st i f h
    rcases ih (process_dir st i d) (i + 1) f h with h1 | ⟨d', hd', hf⟩
    · cases d with
      | none => exact Or.inl h1
      | some r =>
        simp only [process_dir, List.mem_append] at h1
        rcases h1 with h1 | h1
        · exact Or.inl h1
        · exact Or.inr ⟨some r, List.mem_cons_self _ _,
            List.drop_subset _ _ h1⟩
    · exact Or.inr ⟨d', List.mem_cons_of_mem _ hd', hf⟩

theorem combine_restarts_frames_pos (dirs : List (Option RunFiles))
    (hpos : ∀ d ∈ dirs, frames_pos d = true) :
    ∀ f ∈ (combine_restarts dirs).coors_frames, 0 < f := by
  intro f hf
  rcases mem_coors_frames_combine_go dirs init_state 0 f hf with h | ⟨d, hd, hfd⟩
  · simp [init_state] at h
  · cases d with
    | none => simp [run_frames] at hfd
    | some r =>
      have hall := hpos _ hd
      simp only [frames_pos, Bool.and_eq_true, List.all_eq_true, decide_eq_true_eq] at hall
      exact hall.2 f hfd

theorem single_run_stitch_nop (S : List Int) (ch : List Line)
    (hS : ∀ f ∈ S, 0 < f) :
    (combine_restarts [some ⟨S, ch⟩]).coors_frames = S := by
  simp only [combine_restarts, combine_go, process_dir, init_state]
  cases S with
  | nil => simp [valid_start_idx, List.findIdx?]
  | cons a t =>
    have ha : 0 < a := hS a (List.mem_cons_self a t)
    simp [valid_start_idx, List.findIdx?_cons, ha]

/-- Claim C8: for runs whose frame numbers are positive (the program's
domain: the initial watermark 0 stands for "nothing committed yet"),
feeding the stitched frame sequence back through `combine_restarts` as a
single run with the initial watermark returns it unchanged. -/
theorem c8_stitch_idempotent (runs : List (Option RunFiles)) (ch : List Line)
    (hpos : ∀ d ∈ runs, frames_pos d = true) :
    (combine_restarts [some ⟨(combine_restarts runs).coors_frames, ch⟩]).coors_frames
      = (combine_restarts runs).coors_frames :=
  single_run_stitch_nop _ ch (combine_restarts_frames_pos runs hpos)

/-- Witness for C8 on a concrete overlapping two-run input. -/
theorem c8_stitch_idempotent_witness :
    (combine_restarts
        [some ⟨(combine_restarts
          [some ⟨[1, 2, 3], [['h'], ['a'], ['b'], ['c']]⟩,
           some ⟨[2, 3, 4], [['h'], ['d'], ['e'], ['f']]⟩]).coors_frames, []⟩]).coors_frames
      = (combine_restarts
          [some ⟨[1, 2, 3], [['h'], ['a'], ['b'], ['c']]⟩,
           some ⟨[2, 3, 4], [['h'], ['d'], ['e'], ['f']]⟩]).coors_frames :=
  c8_stitch_idempotent _ [] (by decide)

/-! ### Claim C7: header uniqueness in the merged charge stream -/

/-- Claim C7, counterexample: two replicate charge files whose shared
header `0\t1\t2` is purely numeric (as in the spec's own concrete
scenario).  The replicate concatenation drops mid-stream lines only when
they contain the character `H`, so the second file's header is not
detected and the merged stream contains the header twice — not exactly
once. -/
theorem c7_counterexample :
    (combine_replicates_charges
        [["0\t1\t2\n".data, "0.1\t0.2\t0.3\n".data],
         ["0\t1\t2\n".data, "0.4\t0.5\t0.6\n".data]]).count "0\t1\t2\n".data = 2 := by decide

theorem flatten_filter_headers (fs : List (List Line))
    (hf : ∀ f ∈ fs, f ≠ [] ∧ hasSubstr ['H'] (f.headD []) = true ∧
      ∀ l ∈ f.drop 1, hasSubstr ['H'] l = false) :
    fs.flatten.filter (fun l => !(hasSubstr ['H'] l))
      = (fs.map (fun f => f.drop 1)).flatten := by
  induction fs with
  | nil => rfl
  | cons f fs' ih =>
    obtain ⟨hne, hhd, htl⟩ := hf f (List.mem_cons_self _ _)
    cases f with
    | nil => exact absurd rfl hne
    | cons hd tl =>
      simp only [List.flatten_cons, List.filter_append, List.map_cons]
      rw [ih (fun x hx => hf x (List.mem_cons_of_mem _ hx))]
      simp only [List.headD_cons] at hhd
      simp only [List.filter_cons, hhd, Bool.not_true]
      simp only [List.drop_succ_cons, List.drop_zero] at htl
      have : tl.filter (fun l => !(hasSubstr ['H'] l)) = tl :=
        List.filter_eq_self.mpr (fun l hl => by simp [htl l hl])
      simp [this]

theorem combine_go_header_rows_of_pos :
    ∀ (dirs : List (Option RunFiles)) (st : CombineState) (i : Nat), i ≠ 0 →
      (combine_go st i dirs).header_rows = st.header_rows := by
  intro dirs
  induction dirs with
  | nil => intro st i _; rfl
  | cons d rest ih =>
    intro st i hi
    have h1 : (process_dir st i d).header_rows = st.header_rows := by
      cases d with
      | none => rfl
      | some r => simp [process_dir, hi]
    rw [combine_go, ih _ (i + 1) (Nat.succ_ne_zero i), h1]

/-- Claim C7 as amended: `combine_replicates` keeps the first line of the
concatenated stream and drops a later line exactly when it contains the
character `H`; hence when every replicate file is non-empty, every header
contains an `H` and no data row does, the merged stream is the first
header followed by all data rows in order (one header total).  A stray
header without an `H` is not dropped (see the counterexample), and when
the first run directory of `combine_restarts` is skipped, no header line
is written at all. -/
theorem c7_amended :
    (∀ (h1 : Line) (t1 : List Line) (fs : List (List Line)),
      (∀ l ∈ t1, hasSubstr ['H'] l = false) →
      (∀ f ∈ fs, f ≠ [] ∧ hasSubstr ['H'] (f.headD []) = true ∧
        ∀ l ∈ f.drop 1, hasSubstr ['H'] l = false) →
      combine_replicates_charges ((h1 :: t1) :: fs)
        = h1 :: (t1 ++ (fs.map (fun f => f.drop 1)).flatten))
    ∧ (∀ rest : List (Option RunFiles),
        (combine_restarts (none :: rest)).header_rows = []) := by
  constructor
  · intro h1 t1 fs ht1 hfs
    have hdef : combine_replicates_charges ((h1 :: t1) :: fs)
        = h1 :: ((t1 ++ fs.flatten).filter (fun l => !(hasSubstr ['H'] l))) := rfl
    rw [hdef, List.filter_append,
      List.filter_eq_self.mpr (fun l hl => by simp [ht1 l hl]),
      flatten_filter_headers fs hfs]
  · intro rest
    have hdef : combine_restarts (none :: rest) = combine_go init_state 1 rest := rfl
    rw [hdef, combine_go_header_rows_of_pos rest init_state 1 (by decide)]
    rfl

/-- Witness for the amended C7: two replicate files with `H`-bearing
headers merge into a single-header stream. -/
theorem c7_amended_witness :
    combine_replicates_charges
        [["1H\t2C\n".data, "0.1\t0.2\n".data], ["1H\t2C\n".data, "0.3\t0.4\n".data]]
      = "1H\t2C\n".data :: (["0.1\t0.2\n".data] ++
          ([["1H\t2C\n".data, "0.3\t0.4\n".data]].map (fun f => f.drop 1)).flatten) :=
  c7_amended.1 "1H\t2C\n".data ["0.1\t0.2\n".data]
    [["1H\t2C\n".data, "0.3\t0.4\n".data]] (by decide) (by decide)

/-! ### Claim C5: the projector's record surgery -/

/-- Claim C5, counterexample: the coordinate tokens are truncated with
`x[0:6]` but never padded, so on the 3-character tokens `1.0`, `2.0`,
`3.0` the emitted record is only 71 bytes long and byte 79 — outside
`[30,54)`, which the claim says is unchanged — differs from the
template's. -/
theorem c5_counterexample :
    (pdb_record c5_template "1.0".data "2.0".data "3.0".data).get? 79
      ≠ c5_template.get? 79 := by decide

/-- Claim C5 as amended: the output record is
`template[0:30] ++ x[0:6] ++ "  " ++ y[0:6] ++ "  " ++ z[0:6] ++ "  " ++ template[54:80]`:
tokens are truncated to at most 6 characters but not padded, so the bytes
outside `[30,54)` sit at their original positions exactly when each token
is exactly 6 characters wide; in that case an 80-byte template record is
reproduced byte-for-byte outside columns `[30,54)` (in particular when
the tokens equal the template's own three 6-character fields). -/
theorem c5_amended (T x y z : Line) (hT : T.length = 80)
    (hx : x.length = 6) (hy : y.length = 6) (hz : z.length = 6) :
    (pdb_record T x y z).take 30 = T.take 30
    ∧ (pdb_record T x y z).drop 54 = T.drop 54
    ∧ (pdb_record T x y z).length = 80 := by
  have hA : (pySlice T 0 30).length = 30 := by simp [pySlice, hT]
  have hxl : (pySlice x 0 6).length = 6 := by simp [pySlice, hx]
  have hyl : (pySlice y 0 6).length = 6 := by simp [pySlice, hy]
  have hzl : (pySlice z 0 6).length = 6 := by simp [pySlice, hz]
  have hE : pySlice T 54 80 = T.drop 54 := by
    simp [pySlice, List.take_of_length_le (le_of_eq hT)]
  refine ⟨?_, ?_, ?_⟩
  · have h30 : pdb_record T x y z
        = pySlice T 0 30 ++ (pySlice x 0 6 ++ ([' ', ' '] ++ (pySlice y 0 6
          ++ ([' ', ' '] ++ (pySlice z 0 6 ++ ([' ', ' '] ++ pySlice T 54 80)))))) := by
      simp [pdb_record, List.append_assoc]
    rw [h30, List.take_left' hA]
    simp [pySlice]
  · have hL : ((pySlice T 0 30 ++ pySlice x 0 6 ++ [' ', ' '] ++ pySlice y 0 6
        ++ [' ', ' '] ++ pySlice z 0 6 ++ [' ', ' ']) : Line).length = 54 := by
      simp only [List.length_append, hA, hxl, hyl, hzl]
      rfl
    calc (pdb_record T x y z).drop 54
        = ((pySlice T 0 30 ++ pySlice x 0 6 ++ [' ', ' '] ++ pySlice y 0 6
            ++ [' ', ' '] ++ pySlice z 0 6 ++ [' ', ' ']) ++ pySlice T 54 80).drop 54 := rfl
      _ = pySlice T 54 80 := List.drop_left' hL
      _ = T.drop 54 := hE
  · simp only [pdb_record, List.length_append, hA, hxl, hyl, hzl, hE, List.length_drop, hT]
    rfl

/-- Witness for the amended C5 on the concrete 80-byte template and
6-character tokens. -/
theorem c5_amended_witness :
    (pdb_record c5_template "12.345".data "12.345".data "12.345".data).take 30
        = c5_template.take 30
    ∧ (pdb_record c5_template "12.345".data "12.345".data "12.345".data).drop 54
        = c5_template.drop 54
    ∧ (pdb_record c5_template "12.345".data "12.345".data "12.345".data).length = 80 :=
  c5_amended c5_template _ _ _ (by decide) (by decide) (by decide) (by decide)

/-! ### Claim C6: the projector's abort on a malformed coordinate line -/

/-- Claim C6, counterexample: on an input whose fourth line has three
tokens, the projector does die reporting line number 4 and that raw line —
but the output file it opened with mode `"w"` is left on disk holding the
record already written for the first atom: `c6_partial ≠ []`, so an
output file for the unit is left behind, contrary to the claim. -/
theorem c6_counterexample :
    xyz2pdb_traj c6_xyz c6_pdb
        = some (Except.error (PdbAbort.died 4 "B 1.0 1.0\n".data c6_partial))
    ∧ c6_partial ≠ [] :=
  ⟨rfl, by decide⟩

theorem xyz2pdb_go_died (pdb : List Line) (m : Int) :
    ∀ (xs : List Line) (atom : Int) (lc : Nat) (acc : List Line)
      (n : Nat) (t : Line) (po : List Line),
      xyz2pdb_go pdb m xs atom lc acc = .error (.died n t po) →
      lc < n ∧ xs.get? (n - lc - 1) = some t ∧ (pyTokens (pyStripNl t)).length ≠ 4 := by
  intro xs
  induction xs with
  | nil =>
    intro atom lc acc n t po h
    exact absurd h (by simp [xyz2pdb_go])
  | cons line rest ih =>
    intro atom lc acc n t po h
    simp only [xyz2pdb_go] at h
    split at h
    · split at h
      · split at h
        · simp at h
        · split at h
          · have hrec := ih _ _ _ _ _ _ h
            refine ⟨by omega, ?_, hrec.2.2⟩
            have hn : n - lc - 1 = (n - (lc + 1) - 1) + 1 := by omega
            rw [hn, List.get?_cons_succ]
            exact hrec.2.1
          · have hrec := ih _ _ _ _ _ _ h
            refine ⟨by omega, ?_, hrec.2.2⟩
            have hn : n - lc - 1 = (n - (lc + 1) - 1) + 1 := by omega
            rw [hn, List.get?_cons_succ]
            exact hrec.2.1
      · rename_i hlen
        simp only [Except.error.injEq, PdbAbort.died.injEq] at h
        obtain ⟨hn, hline, -⟩ := h
        refine ⟨by omega, ?_, ?_⟩
        · have h0 : n - lc - 1 = 0 := by omega
          rw [h0]
          simp [hline]
        · intro hc4
          apply hlen
          subst hline
          simp [pySlice, List.length_drop, List.length_take, hc4]
    · split at h
      · have hrec := ih _ _ _ _ _ _ h
        refine ⟨by omega, ?_, hrec.2.2⟩
        have hn : n - lc - 1 = (n - (lc + 1) - 1) + 1 := by omega
        rw [hn, List.get?_cons_succ]
        exact hrec.2.1
      · have hrec := ih _ _ _ _ _ _ h
        refine ⟨by omega, ?_, hrec.2.2⟩
        have hn : n - lc - 1 = (n - (lc + 1) - 1) + 1 := by omega
        rw [hn, List.get?_cons_succ]
        exact hrec.2.1

/-- Claim C6 as amended: whenever the conversion loop dies, the reported
line number is the exact 1-based index of the offending raw line in the
input, that line does not split into exactly four whitespace-separated
tokens — but the partially-written output file remains on disk (see the
counterexample: its content accompanies the abort). -/
theorem c6_amended (xyz pdb : List Line) (m : Int) (n : Nat) (t : Line) (po : List Line)
    (h : xyz2pdb_go pdb m xyz (-1) 0 [] = .error (.died n t po)) :
    1 ≤ n ∧ xyz.get? (n - 1) = some t ∧ (pyTokens (pyStripNl t)).length ≠ 4 := by
  have hrec := xyz2pdb_go_died pdb m xyz (-1) 0 [] n t po h
  exact ⟨hrec.1, by simpa using hrec.2.1, hrec.2.2⟩

/-- Witness for the amended C6 at the concrete malformed input. -/
theorem c6_amended_witness :
    1 ≤ 4 ∧ c6_xyz.get? (4 - 1) = some "B 1.0 1.0\n".data
    ∧ (pyTokens (pyStripNl "B 1.0 1.0\n".data)).length ≠ 4 :=
  c6_amended c6_xyz c6_pdb 2 4 "B 1.0 1.0\n".data c6_partial rfl

/-! ### Claim C9: the section integrity filter -/

/-- Claim C9: the claim says a completed section is retained iff its line
count is `atom_count + 2`.  Evaluating the code on a well-formed two-section
file (`atom_count = 2`, two sections of exactly 4 lines each) shows the
divergence: the output is empty and one section is counted incomplete,
because the first section's atom-count line was consumed by `readline()`
as the delimiter (so its buffer holds only 3 lines and it is discarded),
and the final buffered section is never flushed when the input ends. -/
theorem c9_code_behavior : clean_incomplete_xyz c9_file = some ([], 1) := by decide

/-! ### Claim C10: nan rows are dropped from the QM replicate merge -/

theorem filterMap_if_length (c : Line → Bool) (g : Line → Line) :
    ∀ rows : List Line,
      (rows.filterMap (fun l => if c l then none else some (g l))).length
        = (rows.filter (fun l => !(c l))).length := by
  intro rows
  induction rows with
  | nil => rfl
  | cons r rs ih =>
    by_cases hc : c r
    · simp [List.filterMap_cons, List.filter_cons, hc, ih]
    · simp [List.filterMap_cons, List.filter_cons, hc, ih]

theorem qm_go_length :
    ∀ (repls : List (Line × List Line)) (hw : Bool),
      (qm_go hw repls).length
        = (if (hw || repls.all (fun p => p.2.isEmpty)) then 0 else 1)
          + (repls.map (fun p =>
              ((p.2.drop 1).filter (fun l => !(hasSubstr nanLit l))).length)).sum := by
  intro repls
  induction repls with
  | nil => intro hw; simp [qm_go]
  | cons q rest ih =>
    obtain ⟨repl, lines⟩ := q
    intro hw
    cases lines with
    | nil =>
      simp only [qm_go, qm_process_replicate, List.nil_append]
      rw [ih hw]
      cases hw <;> simp only [List.all_cons, List.isEmpty_nil, Bool.true_and, Bool.true_or,
        Bool.false_or, List.map_cons, List.sum_cons, List.drop_nil, List.filter_nil,
        List.length_nil, Nat.zero_add]
    | cons hdr rows =>
      simp only [qm_go, qm_process_replicate, List.length_append]
      rw [ih true, filterMap_if_length (fun l => hasSubstr nanLit l)
        (fun l => pyStrip l ++ '\t' :: repl) rows]
      simp only [List.all_cons, List.isEmpty_cons, Bool.false_and, Bool.or_false,
        List.map_cons, List.sum_cons, List.drop_succ_cons, List.drop_zero]
      cases hw
      · simp
        omega
      · simp

theorem qm_mem_tagged :
    ∀ (repls : List (Line × List Line)) (hw : Bool) (repl : Line) (lines : List Line),
      (repl, lines) ∈ repls → ∀ row ∈ lines.drop 1, hasSubstr nanLit row = false →
      (pyStrip row ++ '\t' :: repl) ∈ qm_go hw repls := by
  intro repls
  induction repls with
  | nil => intro hw repl lines hp; cases hp
  | cons q rest ih =>
    obtain ⟨qr, ql⟩ := q
    intro hw repl lines hp row hrow hnan
    rcases List.mem_cons.mp hp with heq | hp'
    · injection heq with h1 h2
      subst h1
      subst h2
      cases hlines : lines with
      | nil => rw [hlines] at hrow; cases hrow
      | cons hdr rows =>
        subst hlines
        simp only [List.drop_succ_cons, List.drop_zero] at hrow
        simp only [qm_go, qm_process_replicate]
        apply List.mem_append_left
        apply List.mem_append_right
        exact List.mem_filterMap.mpr ⟨row, hrow, by simp [hnan]⟩
    · simp only [qm_go]
      apply List.mem_append_right
      exact ih _ repl lines hp' row hrow hnan

/-- Claim C10: in the QM replicate merge, every data row containing the
substring `nan` is silently excluded (the merged length counts only
nan-free rows, plus one header when any replicate file is non-empty),
every nan-free data row is written with the replicate identifier appended
after a tab, and on a concrete input with one nan row the merged length is
strictly below one header plus the total data-row count. -/
theorem c10_nan_rows_dropped :
    (∀ repls : List (Line × List Line),
      (combine_qm_replicates repls).length
        = (if repls.all (fun p => p.2.isEmpty) then 0 else 1)
          + (repls.map (fun p =>
              ((p.2.drop 1).filter (fun l => !(hasSubstr nanLit l))).length)).sum)
    ∧ (∀ (repls : List (Line × List Line)) (repl : Line) (lines : List Line),
        (repl, lines) ∈ repls → ∀ row ∈ lines.drop 1, hasSubstr nanLit row = false →
        (pyStrip row ++ '\t' :: repl) ∈ combine_qm_replicates repls)
    ∧ (combine_qm_replicates
        [(['1'], ["0\t1\n".data, "0.1\tnan\n".data, "0.3\t0.4\n".data])]).length < 1 + 2 := by
  refine ⟨?_, ?_, by decide⟩
  · intro repls
    simpa [combine_qm_replicates] using qm_go_length repls false
  · intro repls repl lines hp row hrow hnan
    exact qm_mem_tagged repls false repl lines hp row hrow hnan

/-- Witness for C10: the nan-free row of the concrete input appears in the
merged output tagged with its replicate name. -/
theorem c10_nan_rows_dropped_witness :
    (pyStrip "0.3\t0.4\n".data ++ '\t' :: ['1'])
      ∈ combine_qm_replicates [(['1'], ["0\t1\n".data, "0.1\tnan\n".data, "0.3\t0.4\n".data])] :=
  c10_nan_rows_dropped.2.1 [(['1'], ["0\t1\n".data, "0.1\tnan\n".data, "0.3\t0.4\n".data])]
    ['1'] ["0\t1\n".data, "0.1\tnan\n".data, "0.3\t0.4\n".data]
    (by decide) "0.3\t0.4\n".data (by decide) (by decide)

end QA

